import Mathlib

/-!
# Verification of the portfolio-backend search/aggregation layer

Shallow embedding of the profile/project data model (`src/models/Profile.js`)
and of the public routes in `src/routes/search.js`, `src/routes/skills.js`,
`src/routes/projects.js` and the profile router, together with the
centralized error responder.  Strings are modelled with Lean `String`;
case-insensitive regex matching of a literal query is modelled as
case-folded substring / starts-with tests on the character lists.
MongoDB documents are modelled as Lean structures, a collection as a
`List Profile` in natural (insertion) order, `findOne` as `List.find?`,
`$unwind`+`$group` as a first-seen-order grouping function, and `$sort`
as a stable insertion sort by the corresponding key.
-/

namespace Predusk

/-! ## Character-list string helpers (JS `toLowerCase`, `includes`, `startsWith`, `trim`) -/

/-- `listStartsWith hay needle`: `hay` begins with `needle`. -/
def listStartsWith : List Char → List Char → Bool
  | _, [] => true
  | [], _ :: _ => false
  | a :: as, b :: bs => a == b && listStartsWith as bs

/-- `listContainsSub hay needle`: `needle` occurs contiguously in `hay`
(JS `String.prototype.includes`). -/
def listContainsSub : List Char → List Char → Bool
  | [], needle => needle.isEmpty
  | hay@(_ :: rest), needle => listStartsWith hay needle || listContainsSub rest needle

/-- JS `String.prototype.toLowerCase` / the aggregation operator `$toLower`. -/
def lowerStr (s : String) : String :=
  ⟨s.data.map Char.toLower⟩

/-- Case-insensitive substring test: models `hay.toLowerCase().includes(q.toLowerCase())`
and equally a case-insensitive `$regex` match of the literal query `q`. -/
def containsCI (hay q : String) : Bool :=
  listContainsSub (lowerStr hay).data (lowerStr q).data

/-- Case-insensitive starts-with test: models the anchored regex `^q` with option `i`. -/
def startsWithCI (hay q : String) : Bool :=
  listStartsWith (lowerStr hay).data (lowerStr q).data

/-- Models `String.prototype.trim`: strip whitespace from both ends. -/
def jsTrim (s : String) : String :=
  ⟨((s.data.dropWhile Char.isWhitespace).reverse.dropWhile Char.isWhitespace).reverse⟩

/-- Byte-wise (here: code-point-wise) lexicographic `≤` on char lists, the order
MongoDB uses to sort string keys. -/
def listLeChars : List Char → List Char → Bool
  | [], _ => true
  | _ :: _, [] => false
  | a :: as, b :: bs =>
    if a.toNat < b.toNat then true
    else if b.toNat < a.toNat then false
    else listLeChars as bs

/-- Lexicographic `≤` on strings, used for `$sort` on string fields. -/
def strLe (s t : String) : Bool :=
  listLeChars s.data t.data

theorem listLeChars_total : ∀ as bs : List Char,
    listLeChars as bs = true ∨ listLeChars bs as = true := by
  intro as
  induction as with
  | nil => intro bs; exact Or.inl rfl
  | cons a as ih =>
    intro bs
    cases bs with
    | nil => exact Or.inr rfl
    | cons b bs =>
      by_cases hab : a.toNat < b.toNat
      · left; simp [listLeChars, hab]
      · by_cases hba : b.toNat < a.toNat
        · right; simp [listLeChars, hba]
        · rcases ih bs with h | h
          · left; simp [listLeChars, hab, hba, h]
          · right; simp [listLeChars, hab, hba, h]

theorem listLeChars_trans : ∀ as bs cs : List Char,
    listLeChars as bs = true → listLeChars bs cs = true → listLeChars as cs = true := by
  intro as
  induction as with
  | nil => intro bs cs _ _; rfl
  | cons a as ih =>
    intro bs cs hab hbc
    cases bs with
    | nil => simp [listLeChars] at hab
    | cons b bs =>
      cases cs with
      | nil => simp [listLeChars] at hbc
      | cons c cs =>
        simp only [listLeChars] at hab hbc ⊢
        by_cases h1 : a.toNat < b.toNat
        · by_cases h2 : b.toNat < c.toNat
          · have : a.toNat < c.toNat := Nat.lt_trans h1 h2
            simp [this]
          · by_cases h3 : c.toNat < b.toNat
            · simp [h2, h3] at hbc
            · have hbc' : b.toNat = c.toNat := by omega
              have : a.toNat < c.toNat := hbc' ▸ h1
              simp [this]
        · by_cases h4 : b.toNat < a.toNat
          · simp [h1, h4] at hab
          · have hab' : a.toNat = b.toNat := by omega
            by_cases h2 : b.toNat < c.toNat
            · have : a.toNat < c.toNat := hab' ▸ h2
              simp [this]
            · by_cases h3 : c.toNat < b.toNat
              · simp [h2, h3] at hbc
              · have hbc' : b.toNat = c.toNat := by omega
                have hac : a.toNat = c.toNat := hab'.trans hbc'
                have hnx : ¬ a.toNat < c.toNat := by omega
                have hny : ¬ c.toNat < a.toNat := by omega
                have hab'' : listLeChars as bs = true := by
                  simp [h1, h4] at hab; exact hab
                have hbc'' : listLeChars bs cs = true := by
                  simp [h2, h3] at hbc; exact hbc
                simp [hnx, hny, ih bs cs hab'' hbc'']

/-! ## Data model (`src/models/Profile.js`) -/

/-- Embedded project sub-document (`projectSchema`). `pid` models `_id`. -/
structure Project where
  pid : Nat
  title : String
  description : String
  links : List String
  technologies : List String
  imageUrl : String
  isPublic : Bool
deriving DecidableEq

/-- Embedded work-experience sub-document (`workExperienceSchema`). -/
structure WorkExperience where
  company : String
  position : String
  description : String
  startDate : String
  endDate : String
  isCurrent : Bool
  location : String
deriving DecidableEq

/-- Social links record. -/
structure SocialLinks where
  github : String
  linkedin : String
  portfolio : String
  website : String
deriving DecidableEq

/-- Profile document (`profileSchema`). `id` models `_id`, `userId` the owning user. -/
structure Profile where
  id : Nat
  userId : Nat
  name : String
  email : String
  education : String
  bio : String
  skills : List String
  projects : List Project
  work : List WorkExperience
  links : SocialLinks
  avatar : String
  location : String
  isPublic : Bool
deriving DecidableEq

/-- The profile collection in natural order. -/
abbrev Store := List Profile

/-! ## Errors (`src/middleware/errorHandler.js`) -/

/-- A thrown JS error as seen by the centralized `errorHandler`: its
constructor `name`, `message`, the optional `statusCode` carried by
`AppError`, and the optional Mongo error `code`. -/
structure JsError where
  name : String
  message : String
  statusCode : Option Nat
  code : Option Nat
deriving DecidableEq

/-- `createError.*`: an `AppError` with a status code (`this.constructor.name`). -/
def mkAppError (sc : Nat) (msg : String) : JsError :=
  { name := "AppError", message := msg, statusCode := some sc, code := none }

/-- `new Error(msg)`: a plain error carrying no status code. -/
def mkPlainError (msg : String) : JsError :=
  { name := "Error", message := msg, statusCode := none, code := none }

/-- HTTP status chosen by the `errorHandler` middleware (the `switch` on
`error.name`, with its default branch falling back to `error.statusCode`
or 500). -/
def errorHandlerStatus (e : JsError) : Nat :=
  if e.name == "ValidationError" then 400
  else if e.name == "CastError" then 400
  else if e.name == "MongoError" then (if e.code == some 11000 then 409 else 500)
  else if e.name == "JsonWebTokenError" then 401
  else if e.name == "TokenExpiredError" then 401
  else if e.name == "MulterError" then 400
  else match e.statusCode with
    | some sc => sc
    | none => 500

/-! ## Profile instance methods (`src/models/Profile.js`) -/

/-- Shape of `getPublicProfile()`: everything except `userId`/`email`,
with non-public embedded projects filtered out. -/
structure PublicProfileView where
  id : Nat
  name : String
  bio : String
  education : String
  skills : List String
  projects : List Project
  work : List WorkExperience
  links : SocialLinks
  avatar : String
  location : String
deriving DecidableEq

/-- `profileSchema.methods.getPublicProfile`. -/
def getPublicProfile (p : Profile) : PublicProfileView :=
  { id := p.id, name := p.name, bio := p.bio, education := p.education
    skills := p.skills
    projects := p.projects.filter (fun pr => pr.isPublic)
    work := p.work, links := p.links, avatar := p.avatar, location := p.location }

/-- `profileSchema.methods.addSkill`: push unless already present
(case-sensitive `Array.prototype.includes`). -/
def addSkill (p : Profile) (skill : String) : Profile :=
  if p.skills.contains skill then p
  else { p with skills := p.skills ++ [skill] }

/-- `profileSchema.methods.removeSkill`: keep the entries different from `skill`. -/
def removeSkill (p : Profile) (skill : String) : Profile :=
  { p with skills := p.skills.filter (fun s => s != skill) }

/-- Validated body of `projectSchema` (Joi): `title`/`description` required,
the rest present only when supplied. -/
structure ProjectData where
  title : String
  description : String
  links : Option (List String)
  technologies : Option (List String)
  imageUrl : Option String
  isPublic : Option Bool
deriving DecidableEq

/-- The spread `{ ...old.toObject(), ...projectData }`: fields present in the
validated body override the stored ones; `_id` is kept. -/
def mergeProject (old : Project) (d : ProjectData) : Project :=
  { pid := old.pid
    title := d.title
    description := d.description
    links := d.links.getD old.links
    technologies := d.technologies.getD old.technologies
    imageUrl := d.imageUrl.getD old.imageUrl
    isPublic := d.isPublic.getD old.isPublic }

/-- `findIndex` + in-place replacement on the embedded list: replace the first
project whose `_id` matches, or report that none does. -/
def updateProjList (pid : Nat) (d : ProjectData) : List Project → Option (List Project)
  | [] => none
  | pr :: rest =>
    if pr.pid == pid then some (mergeProject pr d :: rest)
    else (updateProjList pid d rest).map (fun ps => pr :: ps)

/-- `profileSchema.methods.updateProject`: replace the matching embedded project
and save, or `throw new Error('Project not found')`. -/
def updateProject (p : Profile) (pid : Nat) (d : ProjectData) : Except JsError Profile :=
  match updateProjList pid d p.projects with
  | some ps => .ok { p with projects := ps }
  | none => .error (mkPlainError "Project not found")

/-- `profileSchema.methods.removeProject`: filter out the matching `_id`. -/
def removeProject (p : Profile) (pid : Nat) : Profile :=
  { p with projects := p.projects.filter (fun pr => pr.pid != pid) }

/-! ## Pagination (`search.js` / `projects.js` / `skills.js` response envelopes) -/

/-- `Math.ceil(a / b)` for the nonnegative integers the routes feed it. -/
def jsCeilDiv (a b : Nat) : Nat := (a + b - 1) / b

/-- The derived pagination fields each list endpoint computes. -/
structure Pagination where
  totalPages : Nat
  currentPage : Nat
  hasNextPage : Bool
  hasPrevPage : Bool
deriving DecidableEq

/-- `totalPages = Math.ceil(total/limit)`, `hasNextPage = page < totalPages`,
`hasPrevPage = page > 1` — the block shared by every list endpoint. -/
def mkPagination (total limit page : Nat) : Pagination :=
  { totalPages := jsCeilDiv total limit
    currentPage := page
    hasNextPage := decide (page < jsCeilDiv total limit)
    hasPrevPage := decide (1 < page) }

/-- In-memory pagination of an extracted list
(`projects.js` lines 76–92: `slice(startIndex, endIndex)`). -/
def paginateList {α : Type} (xs : List α) (limit page : Nat) : List α × Pagination :=
  ((xs.drop ((page - 1) * limit)).take limit, mkPagination xs.length limit page)

/-! ## `$unwind` + `$group` aggregation helpers -/

/-- `$addToSet`: distinct values, first occurrence kept.  The `fuel`
parameter only makes the recursion structural; it is always run with
enough fuel for the whole list. -/
def dedupNatGo : Nat → List Nat → List Nat
  | _, [] => []
  | 0, _ :: _ => []
  | fuel + 1, n :: rest => n :: dedupNatGo fuel (rest.filter (fun m => m != n))

def dedupNat (l : List Nat) : List Nat := dedupNatGo l.length l

/-- `$group { _id: key s, originalName: { $first: s } }` on a list of strings:
first occurrence of each key class, in first-seen order. -/
def dedupByKeyGo (key : String → String) : Nat → List String → List String
  | _, [] => []
  | 0, _ :: _ => []
  | fuel + 1, s :: rest =>
    s :: dedupByKeyGo key fuel (rest.filter (fun t => key t != key s))

def dedupByKey (key : String → String) (l : List String) : List String :=
  dedupByKeyGo key l.length l

/-- One `$group` bucket over unwound `(userId, skill)` pairs. -/
structure SkillAgg where
  key : String
  originalName : String
  count : Nat
  profiles : List Nat
deriving DecidableEq

/-- `$group { _id: key skill, count: { $sum: 1 }, originalName: { $first },
profiles: { $addToSet: userId } }` over unwound `(userId, skill)` pairs,
buckets in first-seen order. -/
def groupAggGo (key : String → String) : Nat → List (Nat × String) → List SkillAgg
  | _, [] => []
  | 0, _ :: _ => []
  | fuel + 1, (u, s) :: rest =>
    { key := key s
      originalName := s
      count := 1 + rest.countP (fun t => key t.2 == key s)
      profiles := dedupNat (u :: (rest.filter (fun t => key t.2 == key s)).map (fun t => t.1)) }
    :: groupAggGo key fuel (rest.filter (fun t => key t.2 != key s))

def groupAggBy (key : String → String) (occs : List (Nat × String)) : List SkillAgg :=
  groupAggGo key occs.length occs

/-- All `(userId, skill)` occurrences of public profiles, in document order
(`$match { isPublic: true }` + `$unwind '$skills'`). -/
def publicSkillOccs (store : Store) : List (Nat × String) :=
  (store.filter (fun p => p.isPublic)).flatMap (fun p => p.skills.map (fun s => (p.userId, s)))

/-! ## `$sort` orders (stable sorts, modelled with `List.insertionSort`) -/

/-- `$sort { count: -1, originalName: 1 }`. -/
def bucketLE (a b : SkillAgg) : Prop :=
  b.count < a.count ∨ (a.count = b.count ∧ strLe a.originalName b.originalName = true)

/-- `$sort { count: -1, _id: 1 }` (tie-break on the lowercased key). -/
def aggKeyLE (a b : SkillAgg) : Prop :=
  b.count < a.count ∨ (a.count = b.count ∧ strLe a.key b.key = true)

/-- `$sort { count: -1 }` with no tie-break. -/
def countLE (a b : SkillAgg) : Prop := b.count ≤ a.count

/-- `.sort({ name: 1 })` on profiles. -/
def profileNameLE (a b : Profile) : Prop := strLe a.name b.name = true

instance : DecidableRel bucketLE := fun a b => by
  unfold bucketLE; infer_instance

instance : DecidableRel aggKeyLE := fun a b => by
  unfold aggKeyLE; infer_instance

instance : DecidableRel countLE := fun a b => by
  unfold countLE; infer_instance

instance : DecidableRel profileNameLE := fun a b => by
  unfold profileNameLE; infer_instance

instance : IsTotal SkillAgg bucketLE := by
  constructor
  intro a b
  rcases Nat.lt_trichotomy a.count b.count with h | h | h
  · exact Or.inr (Or.inl h)
  · rcases listLeChars_total a.originalName.data b.originalName.data with hs | hs
    · exact Or.inl (Or.inr ⟨h, hs⟩)
    · exact Or.inr (Or.inr ⟨h.symm, hs⟩)
  · exact Or.inl (Or.inl h)

instance : IsTrans SkillAgg bucketLE := by
  constructor
  intro a b c hab hbc
  rcases hab with h1 | ⟨h1, h1s⟩ <;> rcases hbc with h2 | ⟨h2, h2s⟩
  · exact Or.inl (Nat.lt_trans h2 h1)
  · exact Or.inl (h2 ▸ h1)
  · exact Or.inl (h1 ▸ h2)
  · exact Or.inr ⟨h1.trans h2, listLeChars_trans _ _ _ h1s h2s⟩

instance : IsTotal SkillAgg aggKeyLE := by
  constructor
  intro a b
  rcases Nat.lt_trichotomy a.count b.count with h | h | h
  · exact Or.inr (Or.inl h)
  · rcases listLeChars_total a.key.data b.key.data with hs | hs
    · exact Or.inl (Or.inr ⟨h, hs⟩)
    · exact Or.inr (Or.inr ⟨h.symm, hs⟩)
  · exact Or.inl (Or.inl h)

instance : IsTrans SkillAgg aggKeyLE := by
  constructor
  intro a b c hab hbc
  rcases hab with h1 | ⟨h1, h1s⟩ <;> rcases hbc with h2 | ⟨h2, h2s⟩
  · exact Or.inl (Nat.lt_trans h2 h1)
  · exact Or.inl (h2 ▸ h1)
  · exact Or.inl (h1 ▸ h2)
  · exact Or.inr ⟨h1.trans h2, listLeChars_trans _ _ _ h1s h2s⟩

instance : IsTotal SkillAgg countLE :=
  ⟨fun a b => (Nat.le_total b.count a.count).imp id id⟩

instance : IsTrans SkillAgg countLE :=
  ⟨fun _ _ _ hab hbc => Nat.le_trans hbc hab⟩

instance : IsTotal Profile profileNameLE :=
  ⟨fun a b => listLeChars_total a.name.data b.name.data⟩

instance : IsTrans Profile profileNameLE :=
  ⟨fun _ _ _ hab hbc => listLeChars_trans _ _ _ hab hbc⟩

/-! ## `GET /api/search` (`src/routes/search.js`) -/

/-- `!query || query.trim().length === 0`: absent, empty, or whitespace-only. -/
def blankQuery : Option String → Bool
  | none => true
  | some s => s == "" || (jsTrim s).length == 0

/-- Profile card selected by the profiles branch
(`userId name avatar bio skills education location`). -/
structure ProfileCard where
  id : Nat
  userId : Nat
  name : String
  avatar : String
  bio : String
  skills : List String
  education : String
  location : String
deriving DecidableEq

def toProfileCard (p : Profile) : ProfileCard :=
  { id := p.id, userId := p.userId, name := p.name, avatar := p.avatar
    bio := p.bio, skills := p.skills, education := p.education, location := p.location }

/-- Project card shaped by the projects branch. -/
structure ProjectCard where
  id : Nat
  title : String
  description : String
  links : List String
  technologies : List String
  imageUrl : String
  profileId : Nat
  profileUserId : Nat
  profileName : String
  profileAvatar : String
deriving DecidableEq

def toProjectCard (p : Profile) (pr : Project) : ProjectCard :=
  { id := pr.pid, title := pr.title, description := pr.description
    links := pr.links, technologies := pr.technologies, imageUrl := pr.imageUrl
    profileId := p.id, profileUserId := p.userId
    profileName := p.name, profileAvatar := p.avatar }

/-- One paginated branch result (`{ data, total, totalPages, currentPage,
hasNextPage, hasPrevPage }` flattened into `data`/`total`/`pg`). -/
structure Paged (α : Type) where
  data : List α
  total : Nat
  pg : Pagination
deriving DecidableEq

/-- The profiles-branch match: `isPublic` AND the free-text query ORed over
name/bio/education/location (case-insensitive regex). -/
def profileTextMatch (q : String) (p : Profile) : Bool :=
  p.isPublic &&
    (containsCI p.name q || containsCI p.bio q ||
     containsCI p.education q || containsCI p.location q)

/-- Profiles branch of `GET /api/search`: filter, sort by name, page, shape. -/
def searchProfilesBranch (store : Store) (q : String) (page limit : Nat) :
    Paged ProfileCard :=
  let matched := store.filter (profileTextMatch q)
  let sorted := List.insertionSort profileNameLE matched
  { data := ((sorted.drop ((page - 1) * limit)).take limit).map toProfileCard
    total := matched.length
    pg := mkPagination matched.length limit page }

/-- The per-project text match used both by the in-memory extraction and by the
`$unwind` count pipeline of the projects branch. -/
def projectTextMatch (q : String) (pr : Project) : Bool :=
  containsCI pr.title q || containsCI pr.description q ||
    pr.technologies.any (fun t => containsCI t q)

/-- The profile-level Mongo match of the projects branch: `isPublic` AND the
query matching some project title, description, or technology. -/
def profileHasMatchingProject (q : String) (p : Profile) : Bool :=
  p.isPublic &&
    (p.projects.any (fun pr => containsCI pr.title q) ||
     p.projects.any (fun pr => containsCI pr.description q) ||
     p.projects.any (fun pr => pr.technologies.any (fun t => containsCI t q)))

/-- Projects branch of `GET /api/search`: page over matching PROFILES, extract
their public matching projects, and take the total from the `$unwind` count
pipeline over all public profiles. -/
def searchProjectsBranch (store : Store) (q : String) (page limit : Nat) :
    Paged ProjectCard :=
  let pageProfiles := ((store.filter (profileHasMatchingProject q)).drop
    ((page - 1) * limit)).take limit
  let projects := pageProfiles.flatMap (fun p =>
    (p.projects.filter (fun pr => pr.isPublic && projectTextMatch q pr)).map
      (toProjectCard p))
  let total := ((store.filter (fun p => p.isPublic)).flatMap
    (fun p => p.projects.filter (fun pr => pr.isPublic && projectTextMatch q pr))).length
  { data := projects, total := total, pg := mkPagination total limit page }

/-- Occurrences of the skills branch after its `$match { skills: /q/i }`. -/
def matchingOccs (store : Store) (q : String) : List (Nat × String) :=
  (publicSkillOccs store).filter (fun t => containsCI t.2 q)

/-- The grouped and sorted buckets of the skills branch
(`$group` by `$toLower`, `$sort { count: -1, originalName: 1 }`). -/
def searchSkillsSortedBuckets (store : Store) (q : String) : List SkillAgg :=
  List.insertionSort bucketLE (groupAggBy lowerStr (matchingOccs store q))

/-- Skills branch of `GET /api/search`: buckets shaped as
`{ name: originalName, count }`, `$skip`/`$limit` paging, total = number of
distinct folded skills. -/
def searchSkillsBranch (store : Store) (q : String) (page limit : Nat) :
    Paged (String × Nat) :=
  let sorted := searchSkillsSortedBuckets store q
  let total := (groupAggBy lowerStr (matchingOccs store q)).length
  { data := ((sorted.drop ((page - 1) * limit)).take limit).map
      (fun b => (b.originalName, b.count))
    total := total
    pg := mkPagination total limit page }

/-- The assembled `results` object of `GET /api/search`. -/
structure SearchResults where
  query : String
  type : String
  profiles : Option (Paged ProfileCard)
  projects : Option (Paged ProjectCard)
  skills : Option (Paged (String × Nat))
deriving DecidableEq

/-- `GET /api/search`: reject a blank query with BadRequest, otherwise run the
branches selected by `type` (default `all`) on the trimmed query. -/
def searchRoute (store : Store) (q : Option String) (ty : String) (page limit : Nat) :
    Except JsError SearchResults :=
  if blankQuery q then
    .error (mkAppError 400 "Search query is required")
  else
    let sq := jsTrim (q.getD "")
    .ok
      { query := sq
        type := ty
        profiles := if ty == "all" || ty == "profiles" then
            some (searchProfilesBranch store sq page limit) else none
        projects := if ty == "all" || ty == "projects" then
            some (searchProjectsBranch store sq page limit) else none
        skills := if ty == "all" || ty == "skills" then
            some (searchSkillsBranch store sq page limit) else none }

/-! ## `GET /api/search/suggestions` -/

structure Suggestion where
  type : String
  text : String
  value : String
deriving DecidableEq

/-- First-occurrence de-duplication by `value`
(`filter((s, i, self) => i === self.findIndex(t => t.value === s.value))`). -/
def dedupByValueGo : Nat → List Suggestion → List Suggestion
  | _, [] => []
  | 0, _ :: _ => []
  | fuel + 1, s :: rest =>
    s :: dedupByValueGo fuel (rest.filter (fun t => t.value != s.value))

def dedupByValue (l : List Suggestion) : List Suggestion :=
  dedupByValueGo l.length l

/-- Up to 5 public profiles whose name starts with the query (`^q`, `i`). -/
def profileSuggestions (store : Store) (q : String) : List Suggestion :=
  ((store.filter (fun p => p.isPublic && startsWithCI p.name q)).take 5).map
    (fun p => { type := "profile", text := p.name, value := p.name })

/-- All skill occurrences of public profiles, in document order. -/
def publicSkills (store : Store) : List String :=
  (publicSkillOccs store).map (fun t => t.2)

/-- Up to 5 first-seen representatives of folded skill groups whose text starts
with the query (`$match` then `$group { _id: $toLower, originalName: $first }`,
`$limit: 5`). -/
def skillSuggestions (store : Store) (q : String) : List Suggestion :=
  ((dedupByKey lowerStr ((publicSkills store).filter
      (fun s => startsWithCI s q))).take 5).map
    (fun s => { type := "skill", text := s, value := s })

/-- Up to 5 distinct titles of public projects of public profiles whose title
starts with the query (`$group { _id: '$projects.title' }`, `$limit: 5`). -/
def projectSuggestions (store : Store) (q : String) : List Suggestion :=
  ((dedupByKey id ((store.filter (fun p => p.isPublic)).flatMap (fun p =>
      (p.projects.filter (fun pr => pr.isPublic && startsWithCI pr.title q)).map
        (fun pr => pr.title)))).take 5).map
    (fun t => { type := "project", text := t, value := t })

/-- Concatenate the three suggestion sources in order, de-duplicate by value
(first occurrence wins), truncate to the requested limit. -/
def suggestionsList (store : Store) (q : String) (limit : Nat) : List Suggestion :=
  (dedupByValue
    (profileSuggestions store q ++ skillSuggestions store q ++
      projectSuggestions store q)).take limit

/-- `GET /api/search/suggestions`: a blank query yields an empty suggestion
list with success (no error). -/
def suggestionsRoute (store : Store) (q : Option String) (limit : Nat) :
    List Suggestion :=
  if blankQuery q then []
  else suggestionsList store (jsTrim (q.getD "")) limit

/-! ## `GET /api/skills` and `GET /api/skills/top` (`src/routes/skills.js`) -/

/-- One entry of the `GET /api/skills` response: note `name` is the GROUP KEY
`skill._id` (the lowercased skill), not the original casing. -/
structure SkillEntry where
  name : String
  count : Nat
  profileCount : Nat
deriving DecidableEq

/-- `GET /api/skills` response body. -/
structure SkillsListResp where
  skills : List SkillEntry
  pg : Pagination
deriving DecidableEq

/-- `GET /api/skills`: fold skills of public profiles, `$sort {count:-1,_id:1}`,
`$skip`/`$limit`, shape with `name: skill._id`; total = distinct folded skills. -/
def apiSkills (store : Store) (limit page : Nat) : SkillsListResp :=
  let buckets := groupAggBy lowerStr (publicSkillOccs store)
  let sorted := List.insertionSort aggKeyLE buckets
  { skills := ((sorted.drop ((page - 1) * limit)).take limit).map
      (fun b => { name := b.key, count := b.count, profileCount := b.profiles.length })
    pg := mkPagination buckets.length limit page }

/-- One entry of `GET /api/skills/top`: 1-based `rank`, `name` again the
lowercased group key. -/
structure TopSkillEntry where
  rank : Nat
  name : String
  count : Nat
  profileCount : Nat
deriving DecidableEq

/-- `GET /api/skills/top`: same grouping, `$sort { count: -1 }` with no
tie-break, `$limit`, ranked. -/
def apiSkillsTop (store : Store) (limit : Nat) : List TopSkillEntry :=
  let sorted := (List.insertionSort countLE
    (groupAggBy lowerStr (publicSkillOccs store))).take limit
  sorted.enum.map (fun bi =>
    { rank := bi.1 + 1, name := bi.2.key, count := bi.2.count
      profileCount := bi.2.profiles.length })

/-- The `relatedSkills` block of `GET /api/skills/:skillName`:
`$group { _id: '$skills' }` (NO case folding), `$sort { count: -1 }`,
`$limit: 10`, then drop the target (case-insensitive) and keep 5. -/
def relatedSkills (store : Store) (skillName : String) : List (String × Nat) :=
  let top10 := (List.insertionSort countLE
    (groupAggBy id (publicSkillOccs store))).take 10
  ((top10.filter (fun b => lowerStr b.key != lowerStr skillName)).take 5).map
    (fun b => (b.key, b.count))

/-! ## `GET /api/projects/:projectId` (`src/routes/projects.js`) -/

/-- Response of `GET /api/projects/:projectId`: the found embedded project plus
the profile subset `name avatar projects skills bio`. -/
structure ProjectDetailResp where
  project : Project
  profileId : Nat
  profileName : String
  profileAvatar : String
  profileSkills : List String
  profileBio : String
deriving DecidableEq

/-- `GET /api/projects/:projectId`:
`findOne({ 'projects._id': projectId, 'projects.isPublic': true, isPublic: true })`
— the two `projects.*` conditions may be satisfied by DIFFERENT array elements —
then `profile.projects.find(p => p._id === projectId)` with no visibility check. -/
def getProjectById (store : Store) (projectId : Nat) :
    Except JsError ProjectDetailResp :=
  match store.find? (fun p =>
      p.projects.any (fun pr => pr.pid == projectId) &&
      p.projects.any (fun pr => pr.isPublic) &&
      p.isPublic) with
  | none => .error (mkAppError 404 "Project not found or not public")
  | some p =>
    match p.projects.find? (fun pr => pr.pid == projectId) with
    | none => .error (mkAppError 404 "Project not found")
    | some pr => .ok
        { project := pr, profileId := p.id, profileName := p.name
          profileAvatar := p.avatar, profileSkills := p.skills, profileBio := p.bio }

/-! ## Profile router (`routes/profile.js`, unnamed part) -/

/-- `Profile.findOne({ userId })`. -/
def findProfileByUserId (store : Store) (uid : Nat) : Option Profile :=
  store.find? (fun p => p.userId == uid)

/-- `GET /api/profile/:userId`: `findOne({ userId, isPublic: true })`; a missing
and a non-public profile produce the same NotFound error. -/
def getProfileRoute (store : Store) (uid : Nat) : Except JsError PublicProfileView :=
  match store.find? (fun p => p.userId == uid && p.isPublic) with
  | none => .error (mkAppError 404 "Profile not found or not public")
  | some p => .ok (getPublicProfile p)

/-- `POST /api/profile/skills`: add the validated skill, respond with
`'Skill added successfully'` and the resulting skill list. -/
def addSkillRoute (store : Store) (uid : Nat) (skill : String) :
    Except JsError (String × List String) :=
  match findProfileByUserId store uid with
  | none => .error (mkAppError 404 "Profile not found")
  | some p => .ok ("Skill added successfully", (addSkill p skill).skills)

/-- `DELETE /api/profile/skills/:skill`: remove and respond with
`'Skill removed successfully'` whether or not the skill was present. -/
def deleteSkillRoute (store : Store) (uid : Nat) (skill : String) :
    Except JsError (String × List String) :=
  match findProfileByUserId store uid with
  | none => .error (mkAppError 404 "Profile not found")
  | some p => .ok ("Skill removed successfully", (removeSkill p skill).skills)

/-- `PUT /api/profile/projects/:projectId`: `profile.updateProject` may throw
the PLAIN `Error('Project not found')`, which propagates to the error handler. -/
def updateProjectRoute (store : Store) (uid : Nat) (pid : Nat) (d : ProjectData) :
    Except JsError (String × List Project) :=
  match findProfileByUserId store uid with
  | none => .error (mkAppError 404 "Profile not found")
  | some p =>
    match updateProject p pid d with
    | .error e => .error e
    | .ok p' => .ok ("Project updated successfully", p'.projects)

/-- `DELETE /api/profile/projects/:projectId`: always succeeds when the profile
exists. -/
def deleteProjectRoute (store : Store) (uid : Nat) (pid : Nat) :
    Except JsError (String × List Project) :=
  match findProfileByUserId store uid with
  | none => .error (mkAppError 404 "Profile not found")
  | some p => .ok ("Project removed successfully", (removeProject p pid).projects)

/-! ## Spec-side comparator for the related-skills claim -/

/-- The skill histogram as §4.3 of the spec describes it: case-folded grouping
over public profiles, first-seen original casing for display, sorted by count
descending then name ascending. -/
def histogramSpec (store : Store) : List (String × Nat) :=
  (List.insertionSort bucketLE (groupAggBy lowerStr (publicSkillOccs store))).map
    (fun b => (b.originalName, b.count))

/-- The related-skills computation as the claim states it: global top-10 of the
(case-folded) skill histogram, target removed by case-insensitive equality,
truncated to 5. -/
def relatedSkillsSpec (store : Store) (t : String) : List (String × Nat) :=
  (((histogramSpec store).take 10).filter (fun b => lowerStr b.1 != lowerStr t)).take 5

/-! ## Concrete fixtures used by counterexamples and witnesses -/

def mkProject (pid : Nat) (title : String) (pub : Bool) : Project :=
  { pid := pid, title := title, description := "", links := [], technologies := [],
    imageUrl := "", isPublic := pub }

def mkProfile (id uid : Nat) (name : String) (skills : List String)
    (projects : List Project) (pub : Bool) : Profile :=
  { id := id, userId := uid, name := name, email := "", education := "", bio := "",
    skills := skills, projects := projects, work := [],
    links := { github := "", linkedin := "", portfolio := "", website := "" },
    avatar := "", location := "", isPublic := pub }

/-- Two public profiles whose skills are `["React", "react"]` and `["Go"]` —
the spec's own histogram example. -/
def store3 : Store :=
  [mkProfile 1 1 "Alice" ["React", "react"] [] true,
   mkProfile 2 2 "Bob" ["Go"] [] true]

/-- One public profile owning a public project (id 1) and a PRIVATE project
(id 2, title "Secret"). -/
def storeC1 : Store :=
  [mkProfile 1 1 "Owner" ["Go"]
    [mkProject 1 "Portfolio" true, mkProject 2 "Secret" false] true]

/-- Three public profiles with skills `["React"]`, `["react"]`, `["Go"]`:
case-sensitive and case-folded grouping differ here. -/
def storeC7 : Store :=
  [mkProfile 1 1 "A" ["React"] [] true,
   mkProfile 2 2 "B" ["react"] [] true,
   mkProfile 3 3 "C" ["Go"] [] true]

/-- One profile with `isPublic = false`. -/
def storePriv : Store :=
  [mkProfile 5 5 "Hidden" ["Rust"] [] false]

/-- A public profile (userId 7) whose skill list is exactly `["Go"]`. -/
def profileGo : Profile := mkProfile 7 7 "Gopher" ["Go"] [mkProject 3 "CLI" true] true

/-- A profile with an empty skill list. -/
def profileNoSkills : Profile := mkProfile 8 8 "Fresh" [] [] true

/-- A store containing `profileGo`. -/
def storeGo : Store := [profileGo]

/-- A validated project body used when exercising `updateProject`. -/
def projData0 : ProjectData :=
  { title := "New title", description := "New description", links := none,
    technologies := none, imageUrl := none, isPublic := none }

/-! ## General lemmas -/

theorem jsCeilDiv_eq_ceilDiv (a b : Nat) : jsCeilDiv a b = a ⌈/⌉ b := by
  rw [Nat.ceilDiv_eq_add_pred_div]; rfl

theorem lt_jsCeilDiv_iff (t l p : Nat) (hl : 0 < l) :
    p < jsCeilDiv t l ↔ p * l < t := by
  unfold jsCeilDiv
  rw [Nat.lt_iff_add_one_le, Nat.le_div_iff_mul_le hl, Nat.succ_mul]
  omega

theorem countP_congr_list {α : Type} (l : List α) (p q : α → Bool)
    (h : ∀ a ∈ l, p a = q a) : l.countP p = l.countP q := by
  induction l with
  | nil => rfl
  | cons a as ih =>
    rw [List.countP_cons, List.countP_cons, h a (List.mem_cons_self a as),
      ih (fun x hx => h x (List.mem_cons_of_mem a hx))]

/-- Characterization of the `$group` fold: every bucket's key is the folded
first-seen representative, the representative is an occurrence, and the count
is the number of occurrences in its key class. -/
theorem groupAggGo_mem (key : String → String) :
    ∀ (fuel : Nat) (occs : List (Nat × String)) (b : SkillAgg),
      occs.length ≤ fuel → b ∈ groupAggGo key fuel occs →
      b.key = key b.originalName
      ∧ (∃ u, (u, b.originalName) ∈ occs)
      ∧ b.count = occs.countP (fun t => key t.2 == b.key) := by
  intro fuel
  induction fuel with
  | zero =>
    intro occs b hlen hmem
    cases occs with
    | nil => simp [groupAggGo] at hmem
    | cons hd tl => simp at hlen
  | succ fuel ih =>
    intro occs b hlen hmem
    cases occs with
    | nil => simp [groupAggGo] at hmem
    | cons hd tl =>
      obtain ⟨u, s⟩ := hd
      simp only [groupAggGo] at hmem
      rcases List.mem_cons.mp hmem with hb | hb
      · subst hb
        refine ⟨rfl, ⟨u, List.mem_cons_self _ _⟩, ?_⟩
        dsimp only
        rw [List.countP_cons_of_pos _ _ (by simp)]
        omega
      · have hlen' : (tl.filter (fun t => key t.2 != key s)).length ≤ fuel :=
          Nat.le_trans (List.length_filter_le _ _) (Nat.le_of_succ_le_succ hlen)
        obtain ⟨hkey, ⟨v, hv⟩, hcount⟩ := ih _ b hlen' hb
        have hvmem := List.mem_filter.mp hv
        have hne : key b.originalName ≠ key s := by
          have h2 := hvmem.2
          simpa [bne_iff_ne] using h2
        have hbkey_ne : b.key ≠ key s := by rw [hkey]; exact hne
        refine ⟨hkey, ⟨v, List.mem_cons_of_mem _ hvmem.1⟩, ?_⟩
        rw [hcount, List.countP_filter,
          List.countP_cons_of_neg _ _ (by simp [beq_iff_eq]; exact fun heq => hbkey_ne heq.symm)]
        apply countP_congr_list
        intro t _
        by_cases ht : key t.2 = b.key
        · have htne : key t.2 ≠ key s := ht ▸ hbkey_ne
          simp [ht, htne, hbkey_ne]
        · simp [beq_eq_false_iff_ne, ht]

/-- The spec-level restatement of `groupAggBy`. -/
theorem groupAggBy_mem (key : String → String) (occs : List (Nat × String))
    (b : SkillAgg) (hmem : b ∈ groupAggBy key occs) :
    b.key = key b.originalName
    ∧ (∃ u, (u, b.originalName) ∈ occs)
    ∧ b.count = occs.countP (fun t => key t.2 == b.key) :=
  groupAggGo_mem key occs.length occs b (Nat.le_refl _) hmem

theorem dedupByKeyGo_sub (key : String → String) :
    ∀ (fuel : Nat) (l : List String) (s : String),
      s ∈ dedupByKeyGo key fuel l → s ∈ l := by
  intro fuel
  induction fuel with
  | zero =>
    intro l s hmem
    cases l with
    | nil => simp [dedupByKeyGo] at hmem
    | cons hd tl => simp [dedupByKeyGo] at hmem
  | succ fuel ih =>
    intro l s hmem
    cases l with
    | nil => simp [dedupByKeyGo] at hmem
    | cons hd tl =>
      simp only [dedupByKeyGo] at hmem
      rcases List.mem_cons.mp hmem with hs | hs
      · exact hs ▸ List.mem_cons_self _ _
      · exact List.mem_cons_of_mem _ ((List.mem_filter.mp (ih _ s hs)).1)

theorem dedupByValueGo_sub :
    ∀ (fuel : Nat) (l : List Suggestion) (s : Suggestion),
      s ∈ dedupByValueGo fuel l → s ∈ l := by
  intro fuel
  induction fuel with
  | zero =>
    intro l s hmem
    cases l with
    | nil => simp [dedupByValueGo] at hmem
    | cons hd tl => simp [dedupByValueGo] at hmem
  | succ fuel ih =>
    intro l s hmem
    cases l with
    | nil => simp [dedupByValueGo] at hmem
    | cons hd tl =>
      simp only [dedupByValueGo] at hmem
      rcases List.mem_cons.mp hmem with hs | hs
      · exact hs ▸ List.mem_cons_self _ _
      · exact List.mem_cons_of_mem _ ((List.mem_filter.mp (ih _ s hs)).1)

/-- After value-de-duplication all display values are pairwise distinct. -/
theorem dedupByValueGo_pairwise :
    ∀ (fuel : Nat) (l : List Suggestion),
      (dedupByValueGo fuel l).Pairwise (fun a b => a.value ≠ b.value) := by
  intro fuel
  induction fuel with
  | zero =>
    intro l
    cases l with
    | nil => exact List.Pairwise.nil
    | cons hd tl => exact List.Pairwise.nil
  | succ fuel ih =>
    intro l
    cases l with
    | nil => exact List.Pairwise.nil
    | cons hd tl =>
      simp only [dedupByValueGo]
      refine List.Pairwise.cons ?_ (ih _)
      intro t ht
      have htf := List.mem_filter.mp (dedupByValueGo_sub fuel _ t ht)
      have h2 := htf.2
      simp only [bne_iff_ne, ne_eq] at h2
      exact fun heq => h2 heq.symm

/-! ## Claim theorems -/

/-- C1 (supporting theorem for the code bug): in `storeC1` the parent profile is
public, project 1 is public and project 2 is private, yet
`GET /api/projects/2` answers 200 with the private project's data — the
`findOne` conditions `'projects._id'` and `'projects.isPublic'` are satisfied
by different array elements, so the private project leaks through a public
listing endpoint. -/
theorem private_project_leaks :
    (getProjectById storeC1 2).toOption.map
        (fun r => (r.project.title, r.project.isPublic)) = some ("Secret", false)
    ∧ storeC1.map (fun p => p.isPublic) = [true]
    ∧ storeC1.map (fun p => p.projects.map (fun pr => (pr.pid, pr.isPublic)))
        = [[(1, true), (2, false)]] := by
  decide

/-- C2: for every total, every positive limit and every page ≥ 1, the shared
pagination block satisfies `totalPages = ⌈total / limit⌉`,
`hasNextPage = false ↔ currentPage * limit ≥ total`,
`hasPrevPage ↔ currentPage > 1`, the `total = 0` degenerate case, and the
in-memory `slice` pagination returns at most `limit` items with exactly these
fields. -/
theorem pagination_contract (total limit page : Nat) (xs : List Project)
    (hl : 0 < limit) (hp : 1 ≤ page) :
    (mkPagination total limit page).totalPages = total ⌈/⌉ limit
    ∧ ((mkPagination total limit page).hasNextPage = false ↔ total ≤ page * limit)
    ∧ ((mkPagination total limit page).hasPrevPage = true ↔ 1 < page)
    ∧ (total = 0 → (mkPagination total limit page).totalPages = 0
        ∧ (mkPagination total limit page).hasNextPage = false)
    ∧ (paginateList xs limit page).1.length ≤ limit
    ∧ (paginateList xs limit page).2 = mkPagination xs.length limit page := by
  refine ⟨jsCeilDiv_eq_ceilDiv total limit, ?_, ?_, ?_, ?_, rfl⟩
  · simp only [mkPagination, decide_eq_false_iff_not, Nat.not_lt]
    have h2 := not_congr (lt_jsCeilDiv_iff total limit page hl)
    rw [Nat.not_lt, Nat.not_lt] at h2
    exact h2
  · simp [mkPagination]
  · intro h0
    subst h0
    constructor
    · show (0 + limit - 1) / limit = 0
      exact Nat.div_eq_of_lt (by omega)
    · simp only [mkPagination, decide_eq_false_iff_not, Nat.not_lt]
      show (0 + limit - 1) / limit ≤ page
      rw [Nat.div_eq_of_lt (by omega)]
      omega
  · exact List.length_take_le limit _

/-- C2 witness. -/
theorem pagination_contract_witness :
    (mkPagination 5 2 3).totalPages = 5 ⌈/⌉ 2
    ∧ ((mkPagination 5 2 3).hasNextPage = false ↔ 5 ≤ 3 * 2)
    ∧ ((mkPagination 5 2 3).hasPrevPage = true ↔ 1 < 3)
    ∧ (5 = 0 → (mkPagination 5 2 3).totalPages = 0
        ∧ (mkPagination 5 2 3).hasNextPage = false)
    ∧ (paginateList [mkProject 1 "Portfolio" true] 2 3).1.length ≤ 2
    ∧ (paginateList [mkProject 1 "Portfolio" true] 2 3).2 = mkPagination 1 2 3 :=
  pagination_contract 5 2 3 [mkProject 1 "Portfolio" true] (by decide) (by decide)

/-- C4: a missing, empty, or whitespace-only `q` makes `GET /api/search` fail
with BadRequest 400 ("Search query is required"), while the same `q` makes
`GET /api/search/suggestions` succeed with an empty suggestion list. -/
theorem blank_query_asymmetry (store : Store) (q : Option String) (ty : String)
    (page limit lim2 : Nat) (h : blankQuery q = true) :
    searchRoute store q ty page limit = .error (mkAppError 400 "Search query is required")
    ∧ errorHandlerStatus (mkAppError 400 "Search query is required") = 400
    ∧ suggestionsRoute store q lim2 = [] := by
  refine ⟨?_, rfl, ?_⟩
  · unfold searchRoute; rw [h]; rfl
  · unfold suggestionsRoute; rw [h]; rfl

/-- C4 witness. -/
theorem blank_query_asymmetry_witness :
    searchRoute store3 (some "   ") "all" 1 20
        = .error (mkAppError 400 "Search query is required")
    ∧ errorHandlerStatus (mkAppError 400 "Search query is required") = 400
    ∧ suggestionsRoute store3 (some "   ") 10 = [] :=
  blank_query_asymmetry store3 (some "   ") "all" 1 20 10 (by decide)

/-- C5: adding a skill already present (case-sensitive exact match) leaves the
profile — in particular its skill list — unchanged, and adding "Go" twice to an
empty skill list yields exactly `["Go"]`. -/
theorem addSkill_idempotent (p : Profile) (s : String) (h : s ∈ p.skills) :
    addSkill p s = p
    ∧ (addSkill (addSkill profileNoSkills "Go") "Go").skills = ["Go"] := by
  constructor
  · unfold addSkill
    have hc : p.skills.contains s = true := List.elem_eq_true_of_mem h
    rw [if_pos hc]
  · decide

/-- C5 witness. -/
theorem addSkill_idempotent_witness :
    addSkill profileGo "Go" = profileGo
    ∧ (addSkill (addSkill profileNoSkills "Go") "Go").skills = ["Go"] :=
  addSkill_idempotent profileGo "Go" (by decide)

/-- C8: when every profile stored under `uid` is non-public — which covers both
"no profile exists" (vacuously) and "the profile exists but is private" —
`GET /api/profile/:userId` answers with the one NotFound error
`404 "Profile not found or not public"`, identical in both cases, and never
with profile data. -/
theorem private_profile_not_found (store : Store) (uid : Nat)
    (h : ∀ p ∈ store, p.userId = uid → p.isPublic = false) :
    getProfileRoute store uid = .error (mkAppError 404 "Profile not found or not public")
    ∧ errorHandlerStatus (mkAppError 404 "Profile not found or not public") = 404 := by
  have hfind : store.find? (fun p => p.userId == uid && p.isPublic) = none := by
    rw [List.find?_eq_none]
    intro p hp
    simp only [Bool.and_eq_true, beq_iff_eq, not_and]
    intro hu
    rw [h p hp hu]
    simp
  constructor
  · unfold getProfileRoute
    rw [hfind]
  · rfl

/-- C8 witness: `storePriv` holds a private profile with userId 5, and userId 6
is absent; both are reported with the identical 404. -/
theorem private_profile_not_found_witness :
    (getProfileRoute storePriv 5 = .error (mkAppError 404 "Profile not found or not public")
      ∧ errorHandlerStatus (mkAppError 404 "Profile not found or not public") = 404)
    ∧ (getProfileRoute storePriv 6 = .error (mkAppError 404 "Profile not found or not public")
      ∧ errorHandlerStatus (mkAppError 404 "Profile not found or not public") = 404) :=
  ⟨private_profile_not_found storePriv 5 (by decide),
   private_profile_not_found storePriv 6 (by decide)⟩

/-- C9: `DELETE /api/profile/skills/:skill` removes exactly the entries equal
(case-sensitively) to the skill and succeeds with
`'Skill removed successfully'` even when the skill is absent, leaving the list
unchanged; no NotFound is raised for a missing skill. -/
theorem remove_skill_missing_is_noop (store : Store) (uid : Nat) (p : Profile)
    (s : String) (hfind : findProfileByUserId store uid = some p)
    (hmem : s ∉ p.skills) :
    deleteSkillRoute store uid s = .ok ("Skill removed successfully", p.skills)
    ∧ (∀ (q : Profile) (t x : String),
        x ∈ (removeSkill q t).skills ↔ (x ∈ q.skills ∧ x ≠ t)) := by
  constructor
  · have hkeep : p.skills.filter (fun x => x != s) = p.skills := by
      rw [List.filter_eq_self]
      intro a ha
      simp only [bne_iff_ne, ne_eq]
      intro heq
      exact hmem (heq ▸ ha)
    unfold deleteSkillRoute
    rw [hfind]
    dsimp only
    unfold removeSkill
    dsimp only
    rw [hkeep]
  · intro q t x
    simp [removeSkill, List.mem_filter, bne_iff_ne]

/-- C9 witness: removing the absent skill "Rust" from `profileGo`. -/
theorem remove_skill_missing_is_noop_witness :
    deleteSkillRoute storeGo 7 "Rust" = .ok ("Skill removed successfully", profileGo.skills)
    ∧ ("Go" ∈ (removeSkill profileGo "Rust").skills ↔ ("Go" ∈ profileGo.skills ∧ "Go" ≠ "Rust")) :=
  ⟨(remove_skill_missing_is_noop storeGo 7 profileGo "Rust" (by decide) (by decide)).1,
   (remove_skill_missing_is_noop storeGo 7 profileGo "Rust" (by decide) (by decide)).2
      profileGo "Rust" "Go"⟩

/-- Helper for C10: `findIndex` returns `-1` exactly when no embedded project
carries the id. -/
theorem updateProjList_eq_none (pid : Nat) (d : ProjectData) :
    ∀ ps : List Project, (∀ pr ∈ ps, pr.pid ≠ pid) → updateProjList pid d ps = none := by
  intro ps
  induction ps with
  | nil => intro _; rfl
  | cons pr rest ih =>
    intro h
    unfold updateProjList
    have hne : (pr.pid == pid) = false := by
      simp only [beq_eq_false_iff_ne, ne_eq]
      exact h pr (List.mem_cons_self pr rest)
    rw [hne]
    simp only [Bool.false_eq_true, if_false]
    rw [ih (fun x hx => h x (List.mem_cons_of_mem pr hx))]
    rfl

/-- C10: updating an embedded project with an unknown id throws the PLAIN
`Error('Project not found')` carrying no status code, which the centralized
error responder maps to 500 (not 404), and the profile's project list is
untouched; deleting with an unknown id instead succeeds silently with the
project list unchanged. -/
theorem unknown_project_update_500 (store : Store) (uid : Nat) (p : Profile)
    (pid : Nat) (d : ProjectData)
    (hfind : findProfileByUserId store uid = some p)
    (h : ∀ pr ∈ p.projects, pr.pid ≠ pid) :
    updateProject p pid d = .error (mkPlainError "Project not found")
    ∧ (mkPlainError "Project not found").statusCode = none
    ∧ errorHandlerStatus (mkPlainError "Project not found") = 500
    ∧ errorHandlerStatus (mkPlainError "Project not found") ≠ 404
    ∧ removeProject p pid = p
    ∧ updateProjectRoute store uid pid d = .error (mkPlainError "Project not found")
    ∧ deleteProjectRoute store uid pid = .ok ("Project removed successfully", p.projects) := by
  have hupd : updateProject p pid d = .error (mkPlainError "Project not found") := by
    unfold updateProject
    rw [updateProjList_eq_none pid d p.projects h]
  have hrm : removeProject p pid = p := by
    unfold removeProject
    have hkeep : p.projects.filter (fun pr => pr.pid != pid) = p.projects := by
      rw [List.filter_eq_self]
      intro pr hpr
      simp only [bne_iff_ne, ne_eq]
      exact h pr hpr
    rw [hkeep]
  refine ⟨hupd, rfl, rfl, by decide, hrm, ?_, ?_⟩
  · unfold updateProjectRoute
    rw [hfind]
    dsimp only
    rw [hupd]
  · unfold deleteProjectRoute
    rw [hfind]
    dsimp only
    rw [hrm]

/-- C10 witness: `profileGo` has only project id 3; updating project id 99
yields the plain 500 error, deleting it is a silent no-op. -/
theorem unknown_project_update_500_witness :
    updateProject profileGo 99 projData0 = .error (mkPlainError "Project not found")
    ∧ (mkPlainError "Project not found").statusCode = none
    ∧ errorHandlerStatus (mkPlainError "Project not found") = 500
    ∧ errorHandlerStatus (mkPlainError "Project not found") ≠ 404
    ∧ removeProject profileGo 99 = profileGo
    ∧ updateProjectRoute storeGo 7 99 projData0 = .error (mkPlainError "Project not found")
    ∧ deleteProjectRoute storeGo 7 99 = .ok ("Project removed successfully", profileGo.projects) :=
  unknown_project_update_500 storeGo 7 profileGo 99 projData0 (by decide) (by decide)

/-- C3 counterexample: over `store3` (skills `["React","react","Go"]` seen in
that order across two public profiles) the buckets' first-seen original
casings are "React" and "Go", yet `GET /api/skills` displays names that are
NOT original casings of any bucket — it prints the lowercased keys "react" and
"go" — so the claim that all three aggregation endpoints display the
first-seen original casing is false. -/
theorem skills_casing_counterexample :
    ((groupAggBy lowerStr (publicSkillOccs store3)).map (fun b => b.originalName)
        = ["React", "Go"])
    ∧ ¬ (∀ e ∈ (apiSkills store3 50 1).skills,
          ∃ b ∈ groupAggBy lowerStr (publicSkillOccs store3), e.name = b.originalName) := by
  decide

/-- C3 amended: all skill aggregations group case-folded and count occurrences
in the key class; `GET /api/search?type=skills` displays the first-seen
ORIGINAL casing and sorts by count descending then displayed name ascending,
whereas `GET /api/skills` and `GET /api/skills/top` display the lowercased
group key itself (`/api/skills` tie-breaking on that key, `/api/skills/top`
sorting by count only).  On the spec's example the search-type histogram is
`React: 2` (displayed "React") above `Go: 1`, while `GET /api/skills` and
`GET /api/skills/top` display the same buckets as "react" and "go". -/
theorem skills_histogram_amended (store : Store) (q : String) (page limit : Nat) :
    (∀ e ∈ (searchSkillsBranch store q page limit).data,
      (∃ u, (u, e.1) ∈ matchingOccs store q)
      ∧ e.2 = (matchingOccs store q).countP (fun t => lowerStr t.2 == lowerStr e.1))
    ∧ List.Sorted bucketLE (searchSkillsSortedBuckets store q)
    ∧ (∀ e ∈ (apiSkills store limit page).skills,
        ∃ s, (∃ u, (u, s) ∈ publicSkillOccs store) ∧ e.name = lowerStr s)
    ∧ (∀ e ∈ apiSkillsTop store limit,
        ∃ s, (∃ u, (u, s) ∈ publicSkillOccs store) ∧ e.name = lowerStr s)
    ∧ (searchSkillsBranch store3 "" 1 20).data = [("React", 2), ("Go", 1)]
    ∧ (apiSkills store3 50 1).skills.map (fun e => e.name) = ["react", "go"]
    ∧ (apiSkillsTop store3 10).map (fun e => (e.rank, e.name, e.count))
        = [(1, "react", 2), (2, "go", 1)] := by
  refine ⟨?_, ?_, ?_, ?_, by decide, by decide, by decide⟩
  · intro e he
    unfold searchSkillsBranch at he
    dsimp only at he
    obtain ⟨b, hb, hbe⟩ := List.mem_map.mp he
    have hbmem : b ∈ groupAggBy lowerStr (matchingOccs store q) := by
      have h1 := List.mem_of_mem_drop (List.mem_of_mem_take hb)
      unfold searchSkillsSortedBuckets at h1
      exact (List.mem_insertionSort bucketLE).mp h1
    obtain ⟨hkey, ⟨u, hu⟩, hcount⟩ := groupAggBy_mem lowerStr _ b hbmem
    subst hbe
    refine ⟨⟨u, hu⟩, ?_⟩
    dsimp only
    rw [hcount, ← hkey]
  · exact List.sorted_insertionSort bucketLE _
  · intro e he
    unfold apiSkills at he
    dsimp only at he
    obtain ⟨b, hb, hbe⟩ := List.mem_map.mp he
    have hbmem : b ∈ groupAggBy lowerStr (publicSkillOccs store) :=
      (List.mem_insertionSort aggKeyLE).mp (List.mem_of_mem_drop (List.mem_of_mem_take hb))
    obtain ⟨hkey, ⟨u, hu⟩, _⟩ := groupAggBy_mem lowerStr _ b hbmem
    subst hbe
    exact ⟨b.originalName, ⟨u, hu⟩, hkey⟩
  · intro e he
    unfold apiSkillsTop at he
    dsimp only at he
    obtain ⟨bi, hbi, hbe⟩ := List.mem_map.mp he
    have hbsnd : bi.2 ∈ (List.insertionSort countLE
        (groupAggBy lowerStr (publicSkillOccs store))).take limit := by
      have h2 := List.mem_map_of_mem Prod.snd hbi
      rwa [List.enum_map_snd] at h2
    have hbmem : bi.2 ∈ groupAggBy lowerStr (publicSkillOccs store) :=
      (List.mem_insertionSort countLE).mp (List.mem_of_mem_take hbsnd)
    obtain ⟨hkey, ⟨u, hu⟩, _⟩ := groupAggBy_mem lowerStr _ bi.2 hbmem
    subst hbe
    exact ⟨bi.2.originalName, ⟨u, hu⟩, hkey⟩

/-- C7 counterexample: on three public profiles with skills `["React"]`,
`["react"]`, `["Go"]`, the endpoint's `relatedSkills` for target "go" keeps
"React" and "react" as SEPARATE entries of count 1 (the pipeline groups by the
raw `'$skills'` value), while the claim's case-folded top-10-histogram version
yields the single merged bucket `("React", 2)`. -/
theorem related_skills_counterexample :
    relatedSkills storeC7 "go" = [("React", 1), ("react", 1)]
    ∧ relatedSkillsSpec storeC7 "go" = [("React", 2)]
    ∧ relatedSkills storeC7 "go" ≠ relatedSkillsSpec storeC7 "go" := by
  decide

/-- C7 amended: `relatedSkills` is the top 10 of the CASE-SENSITIVE skill
frequency count over public profiles (grouped by the exact skill string,
sorted by count descending with ties kept in first-encountered order), with
entries equal to the target (case-insensitively) removed and the remainder
truncated to 5; every returned entry is an exact occurring skill string with
its exact-occurrence count. -/
theorem related_skills_amended (store : Store) (t : String) :
    (∀ e ∈ relatedSkills store t,
      lowerStr e.1 ≠ lowerStr t
      ∧ (∃ u, (u, e.1) ∈ publicSkillOccs store)
      ∧ e.2 = (publicSkillOccs store).countP (fun o => o.2 == e.1))
    ∧ (relatedSkills store t).length ≤ 5
    ∧ relatedSkills storeC7 "go" = [("React", 1), ("react", 1)] := by
  refine ⟨?_, ?_, by decide⟩
  · intro e he
    unfold relatedSkills at he
    dsimp only at he
    obtain ⟨b, hb, hbe⟩ := List.mem_map.mp he
    have hbf := List.mem_filter.mp (List.mem_of_mem_take hb)
    have hbmem : b ∈ groupAggBy id (publicSkillOccs store) :=
      (List.mem_insertionSort countLE).mp (List.mem_of_mem_take hbf.1)
    obtain ⟨hkey, ⟨u, hu⟩, hcount⟩ := groupAggBy_mem id _ b hbmem
    have hne : lowerStr b.key ≠ lowerStr t := by
      have h2 := hbf.2
      simpa [bne_iff_ne] using h2
    subst hbe
    refine ⟨hne, ⟨u, ?_⟩, ?_⟩
    · dsimp only
      rwa [hkey]
    · dsimp only
      rw [hcount]
      rfl
  · unfold relatedSkills
    dsimp only
    rw [List.length_map]
    exact List.length_take_le 5 _

/-- C6: the suggestions endpoint concatenates, in this order, at most 5 public
profile names, at most 5 skills of public profiles, and at most 5 titles of
public projects of public profiles, each starting with the query
case-insensitively and tagged with its source type, then de-duplicates by
display value (first occurrence wins, so the resulting values are pairwise
distinct) and truncates to the requested limit. -/
theorem suggestions_contract (store : Store) (q : String) (limit : Nat) :
    suggestionsList store q limit
        = (dedupByValue (profileSuggestions store q ++ skillSuggestions store q
            ++ projectSuggestions store q)).take limit
    ∧ (suggestionsList store q limit).length ≤ limit
    ∧ (profileSuggestions store q).length ≤ 5
    ∧ (skillSuggestions store q).length ≤ 5
    ∧ (projectSuggestions store q).length ≤ 5
    ∧ (∀ s ∈ profileSuggestions store q, s.type = "profile" ∧ s.value = s.text
        ∧ startsWithCI s.text q = true
        ∧ ∃ p ∈ store, p.isPublic = true ∧ p.name = s.text)
    ∧ (∀ s ∈ skillSuggestions store q, s.type = "skill" ∧ s.value = s.text
        ∧ startsWithCI s.text q = true
        ∧ ∃ p ∈ store, p.isPublic = true ∧ s.text ∈ p.skills)
    ∧ (∀ s ∈ projectSuggestions store q, s.type = "project" ∧ s.value = s.text
        ∧ startsWithCI s.text q = true
        ∧ ∃ p ∈ store, p.isPublic = true
            ∧ ∃ pr ∈ p.projects, pr.isPublic = true ∧ pr.title = s.text)
    ∧ (suggestionsList store q limit).Pairwise (fun a b => a.value ≠ b.value) := by
  refine ⟨rfl, List.length_take_le limit _, ?_, ?_, ?_, ?_, ?_, ?_, ?_⟩
  · unfold profileSuggestions
    rw [List.length_map]
    exact List.length_take_le 5 _
  · unfold skillSuggestions
    rw [List.length_map]
    exact List.length_take_le 5 _
  · unfold projectSuggestions
    rw [List.length_map]
    exact List.length_take_le 5 _
  · intro s hs
    unfold profileSuggestions at hs
    obtain ⟨p, hp, hps⟩ := List.mem_map.mp hs
    have hpf := List.mem_filter.mp (List.mem_of_mem_take hp)
    have hpf2 := hpf.2
    simp only [Bool.and_eq_true] at hpf2
    obtain ⟨hpub, hstart⟩ := hpf2
    subst hps
    exact ⟨rfl, rfl, hstart, p, hpf.1, hpub, rfl⟩
  · intro s hs
    unfold skillSuggestions at hs
    obtain ⟨str, hstr, hss⟩ := List.mem_map.mp hs
    have hstrf := List.mem_filter.mp
      (dedupByKeyGo_sub lowerStr _ _ str (List.mem_of_mem_take hstr))
    obtain ⟨t, ht, hts⟩ := List.mem_map.mp hstrf.1
    obtain ⟨p, hpmem, htp⟩ := List.exists_of_mem_flatMap ht
    have hpf := List.mem_filter.mp hpmem
    obtain ⟨sk, hsk, hskt⟩ := List.mem_map.mp htp
    subst hss
    refine ⟨rfl, rfl, hstrf.2, p, hpf.1, hpf.2, ?_⟩
    have : t.2 = sk := by rw [← hskt]
    dsimp only
    rw [← hts, this]
    exact hsk
  · intro s hs
    unfold projectSuggestions at hs
    obtain ⟨ttl, httl, hts⟩ := List.mem_map.mp hs
    have httlm := dedupByKeyGo_sub id _ _ ttl (List.mem_of_mem_take httl)
    obtain ⟨p, hpmem, htp⟩ := List.exists_of_mem_flatMap httlm
    have hpf := List.mem_filter.mp hpmem
    obtain ⟨pr, hpr, hprt⟩ := List.mem_map.mp htp
    have hprf := List.mem_filter.mp hpr
    have hprf2 := hprf.2
    simp only [Bool.and_eq_true] at hprf2
    obtain ⟨hprpub, hprstart⟩ := hprf2
    subst hts
    refine ⟨rfl, rfl, ?_, p, hpf.1, hpf.2, pr, hprf.1, hprpub, hprt⟩
    dsimp only
    rw [← hprt]
    exact hprstart
  · exact (dedupByValueGo_pairwise _ _).sublist (List.take_sublist limit _)

/-- C6 witness. -/
theorem suggestions_contract_witness :
    (suggestionsList store3 "r" 10).length ≤ 10
    ∧ (suggestionsList store3 "r" 10).Pairwise (fun a b => a.value ≠ b.value) :=
  ⟨(suggestions_contract store3 "r" 10).2.1,
   (suggestions_contract store3 "r" 10).2.2.2.2.2.2.2.2⟩

/-- C3 amended-claim witness. -/
theorem skills_histogram_amended_witness :
    List.Sorted bucketLE (searchSkillsSortedBuckets store3 "")
    ∧ (searchSkillsBranch store3 "" 1 20).data = [("React", 2), ("Go", 1)] :=
  ⟨(skills_histogram_amended store3 "" 1 20).2.1,
   (skills_histogram_amended store3 "" 1 20).2.2.2.2.1⟩

/-- C7 amended-claim witness. -/
theorem related_skills_amended_witness :
    (relatedSkills store3 "go").length ≤ 5 :=
  (related_skills_amended store3 "go").2.1

end Predusk
